import Mathlib

/-!
Verification development for the RestaurantCostCalculator repository.

The repository contains two Express/TypeScript storage layers:
* a recipe cost calculator (`server/storage.ts`): ingredients, recipes with a
  cached `totalCost` field;
* a point-of-sale tool (`MemStorage` in the unnamed storage module, schema in
  the unnamed schema module): products, sales, operational costs, cost history
  and a sales-analytics aggregator.

Modelling conventions (shallow embedding):
* JavaScript numbers and the stringified decimal columns (`decimal(10,2)`
  stored as strings, read back through `parseFloat`, written through
  `toString`/`toFixed`) are modelled as `ℚ`.  `Number.prototype.toString` is
  injective on numbers and `parseFloat ∘ toString` is the identity, so string
  comparison of canonically stored decimals coincides with `ℚ` equality.
* `Number.prototype.toFixed(2)` (round to nearest hundredth, ties towards
  `+∞`) is modelled by `round2` below; Mathlib's `round` is `⌊x + 1/2⌋`,
  exactly the ECMAScript tie-breaking rule ("pick the larger n").
* A JavaScript `Map` is modelled as an association list in insertion order:
  `get` finds the first matching key, `set` overwrites in place or appends,
  `delete` removes the entry and reports whether it was present.
* Timestamps (`Date`) are modelled as rational milliseconds; the local-time
  day boundary used by the analytics trend is idealised as the UTC day floor
  (timezone offset 0).
* `async` methods have no internal awaiting of shared state; they are
  modelled as pure state-passing functions.
-/

namespace RestaurantSpec

/-! ### JavaScript `Map` as an insertion-ordered association list -/

/-- `Map.get`: first entry with the given key. -/
def mapGet {κ α : Type} [DecidableEq κ] : List (κ × α) → κ → Option α
  | [], _ => none
  | (k', v') :: rest, k => if k' = k then some v' else mapGet rest k

/-- `Map.set`: overwrite the existing entry in place, else append. -/
def mapSet {κ α : Type} [DecidableEq κ] : List (κ × α) → κ → α → List (κ × α)
  | [], k, v => [(k, v)]
  | (k', v') :: rest, k, v =>
      if k' = k then (k, v) :: rest else (k', v') :: mapSet rest k v

/-- `Map.delete`: remove the entry, returning the new map and whether the key
was present. -/
def mapDelete {κ α : Type} [DecidableEq κ] : List (κ × α) → κ → List (κ × α) × Bool
  | [], _ => ([], false)
  | (k', v') :: rest, k =>
      if k' = k then (rest, true)
      else
        let r := mapDelete rest k
        ((k', v') :: r.1, r.2)

theorem mapGet_mapSet_self {κ α : Type} [DecidableEq κ] (m : List (κ × α))
    (k : κ) (v : α) : mapGet (mapSet m k v) k = some v := by
  induction m with
  | nil => simp [mapGet, mapSet]
  | cons hd tl ih =>
      obtain ⟨k', v'⟩ := hd
      by_cases h : k' = k
      · simp [mapGet, mapSet, h]
      · simp [mapGet, mapSet, h, ih]

theorem mapGet_mapSet_ne {κ α : Type} [DecidableEq κ] (m : List (κ × α))
    {k k' : κ} (v : α) (h : k' ≠ k) : mapGet (mapSet m k v) k' = mapGet m k' := by
  have hkk : ¬ k = k' := fun h' => h h'.symm
  induction m with
  | nil => simp [mapGet, mapSet, hkk]
  | cons hd tl ih =>
      obtain ⟨k₀, v₀⟩ := hd
      by_cases h₀ : k₀ = k
      · subst h₀
        simp [mapGet, mapSet, hkk]
      · simp only [mapGet, mapSet, if_neg h₀]
        rw [ih]

theorem mapSet_fresh {κ α : Type} [DecidableEq κ] (m : List (κ × α)) (k : κ)
    (v : α) (h : ∀ p ∈ m, p.1 ≠ k) : mapSet m k v = m ++ [(k, v)] := by
  induction m with
  | nil => simp [mapSet]
  | cons hd tl ih =>
      obtain ⟨k', v'⟩ := hd
      have hk : k' ≠ k := h (k', v') (by simp)
      simp only [mapSet, if_neg hk, List.cons_append, List.cons.injEq, true_and]
      exact ih fun p hp => h p (by simp [hp])

/-! ### Rounding to two decimal places (`toFixed(2)`) -/

/-- `toFixed(2)` idealised over `ℚ`: round `x` to the nearest multiple of
`1/100`, ties towards `+∞` (ECMAScript picks the larger candidate). -/
def round2 (x : ℚ) : ℚ := ((round (x * 100) : ℤ) : ℚ) / 100

theorem round2_hundredth (n : ℤ) : round2 ((n : ℚ) / 100) = (n : ℚ) / 100 := by
  unfold round2
  rw [div_mul_cancel₀ _ (by norm_num : (100 : ℚ) ≠ 0), round_intCast]

/-! ### Recipe cost calculator (`server/storage.ts`) -/

/-- Row of the `ingredients` table; `costPerUnit` is the stringified decimal
column, modelled as `ℚ`. -/
structure Ingredient where
  id : ℤ
  name : String
  unit : String
  costPerUnit : ℚ
  category : String
deriving DecidableEq

/-- One `{ingredientId, quantity}` entry of a recipe's `ingredients` jsonb. -/
structure RecipeIngredient where
  ingredientId : ℤ
  quantity : ℚ
deriving DecidableEq

/-- Row of the `recipes` table; `totalCost` is the cached stringified decimal. -/
structure Recipe where
  id : ℤ
  name : String
  category : String
  servings : ℤ
  ingredients : List RecipeIngredient
  totalCost : ℚ
deriving DecidableEq

/-- `InsertRecipe` (the zod insert schema: no `id`, no `totalCost`). -/
structure InsertRecipe where
  name : String
  category : String
  servings : ℤ
  ingredients : List RecipeIngredient
deriving DecidableEq

/-- `Partial<InsertRecipe>`: every field optional. -/
structure RecipePatch where
  name : Option String := none
  category : Option String := none
  servings : Option ℤ := none
  ingredients : Option (List RecipeIngredient) := none
deriving DecidableEq

/-- Entry of `RecipeWithDetails.ingredientDetails`. -/
structure IngredientDetail where
  ingredient : Ingredient
  quantity : ℚ
  cost : ℚ
deriving DecidableEq

/-- `RecipeWithDetails`: the source spreads the recipe's fields and adds
`ingredientDetails` and `costPerServing`; modelled with the recipe nested. -/
structure RecipeWithDetails where
  recipe : Recipe
  ingredientDetails : List IngredientDetail
  costPerServing : ℚ
deriving DecidableEq

/-- State of the recipe `MemStorage`: two maps and two id counters. -/
structure RecipeStoreState where
  ingredients : List (ℤ × Ingredient)
  recipes : List (ℤ × Recipe)
  currentIngredientId : ℤ
  currentRecipeId : ℤ
deriving DecidableEq

/-- The cost loop shared by `createRecipe` and `updateRecipe`:
`totalCost += parseFloat(ingredient.costPerUnit) * ri.quantity` over entries
whose `ingredientId` resolves, skipping the rest. -/
def calcTotalCost (ings : List (ℤ × Ingredient)) : List RecipeIngredient → ℚ
  | [] => 0
  | ri :: rest =>
      (match mapGet ings ri.ingredientId with
        | some ingredient => ingredient.costPerUnit * ri.quantity
        | none => 0) + calcTotalCost ings rest

/-- `MemStorage.createRecipe`. -/
def createRecipe (s : RecipeStoreState) (ins : InsertRecipe) :
    RecipeStoreState × Recipe :=
  let id := s.currentRecipeId
  let totalCost := calcTotalCost s.ingredients ins.ingredients
  let recipe : Recipe :=
    { id := id, name := ins.name, category := ins.category,
      servings := ins.servings, ingredients := ins.ingredients,
      totalCost := round2 totalCost }
  ({ s with recipes := mapSet s.recipes id recipe, currentRecipeId := id + 1 },
   recipe)

/-- `MemStorage.updateRecipe`: recompute `totalCost` only when the patch
carries an `ingredients` list, else re-round the stored value
(`parseFloat` then `toFixed(2)`). -/
def updateRecipe (s : RecipeStoreState) (id : ℤ) (u : RecipePatch) :
    RecipeStoreState × Option Recipe :=
  match mapGet s.recipes id with
  | none => (s, none)
  | some existing =>
      let totalCost :=
        match u.ingredients with
        | some ris => calcTotalCost s.ingredients ris
        | none => existing.totalCost
      let updated : Recipe :=
        { id := existing.id,
          name := u.name.getD existing.name,
          category := u.category.getD existing.category,
          servings := u.servings.getD existing.servings,
          ingredients := u.ingredients.getD existing.ingredients,
          totalCost := round2 totalCost }
      ({ s with recipes := mapSet s.recipes id updated }, some updated)

/-- The ingredient-detail loop of `getRecipeWithDetails`: resolving entries
are expanded, dangling entries are skipped. -/
def buildIngredientDetails (ings : List (ℤ × Ingredient)) :
    List RecipeIngredient → List IngredientDetail
  | [] => []
  | ri :: rest =>
      match mapGet ings ri.ingredientId with
      | some ingredient =>
          { ingredient := ingredient, quantity := ri.quantity,
            cost := ingredient.costPerUnit * ri.quantity } ::
            buildIngredientDetails ings rest
      | none => buildIngredientDetails ings rest

/-- `MemStorage.getRecipeWithDetails`.  Note: at `servings = 0` the source's
division yields `Infinity`, which `ℚ` cannot represent; theorems about
`costPerServing` therefore assume `servings ≠ 0`. -/
def getRecipeWithDetails (s : RecipeStoreState) (id : ℤ) :
    Option RecipeWithDetails :=
  match mapGet s.recipes id with
  | none => none
  | some recipe =>
      some { recipe := recipe,
             ingredientDetails := buildIngredientDetails s.ingredients recipe.ingredients,
             costPerServing := recipe.totalCost / (recipe.servings : ℚ) }

/-- Modelled from the spec: the claim's cost formula
`Σ ingredient.costPerUnit × quantity` over entries that resolve, with
non-resolving entries contributing 0 (refinement target for C1). -/
def specCostSum (ings : List (ℤ × Ingredient)) (l : List RecipeIngredient) : ℚ :=
  (l.map fun ri =>
    match mapGet ings ri.ingredientId with
    | some ingredient => ingredient.costPerUnit * ri.quantity
    | none => 0).sum

theorem calcTotalCost_eq_specCostSum (ings : List (ℤ × Ingredient))
    (l : List RecipeIngredient) : calcTotalCost ings l = specCostSum ings l := by
  induction l with
  | nil => simp [calcTotalCost, specCostSum]
  | cons ri rest ih =>
      simp only [calcTotalCost, specCostSum, List.map_cons, List.sum_cons]
      rw [ih]; rfl

theorem buildIngredientDetails_eq_filterMap (ings : List (ℤ × Ingredient))
    (l : List RecipeIngredient) :
    buildIngredientDetails ings l =
      l.filterMap fun ri =>
        (mapGet ings ri.ingredientId).map fun ingredient =>
          { ingredient := ingredient, quantity := ri.quantity,
            cost := ingredient.costPerUnit * ri.quantity } := by
  induction l with
  | nil => simp [buildIngredientDetails]
  | cons ri rest ih =>
      cases h : mapGet ings ri.ingredientId with
      | none => simp [buildIngredientDetails, h, ih, List.filterMap_cons]
      | some ingredient => simp [buildIngredientDetails, h, ih, List.filterMap_cons]

/-! ### Sample data for recipe-side witnesses -/

/-- Sample ingredient used by witnesses. -/
def beef : Ingredient := ⟨1, "Beef", "kg", 3/2, "Meat"⟩

/-- Sample stored recipe whose second ingredient entry dangles (id 9 absent)
and whose cached `totalCost` is the 2-decimal value `3.50`. -/
def stew : Recipe := ⟨5, "Stew", "Main", 4, [⟨1, 1⟩, ⟨9, 2⟩], 7/2⟩

/-- Sample recipe-store state. -/
def kitchen : RecipeStoreState := ⟨[(1, beef)], [(5, stew)], 2, 6⟩

/-- C1: on every recipe create, and on every update whose patch carries an
`ingredients` list, the stored `totalCost` equals the sum over resolving
entries of `costPerUnit × quantity` (non-resolving entries contribute 0),
rounded to two decimal places. -/
theorem recipe_totalCost_create_update (s : RecipeStoreState) (ins : InsertRecipe)
    (id : ℤ) (u : RecipePatch) (ris : List RecipeIngredient) :
    ((createRecipe s ins).2.totalCost = round2 (specCostSum s.ingredients ins.ingredients)
      ∧ mapGet (createRecipe s ins).1.recipes (createRecipe s ins).2.id =
          some (createRecipe s ins).2)
    ∧ (u.ingredients = some ris → ∀ ex, mapGet s.recipes id = some ex →
        ∃ r, (updateRecipe s id u).2 = some r
          ∧ r.totalCost = round2 (specCostSum s.ingredients ris)
          ∧ mapGet (updateRecipe s id u).1.recipes id = some r) := by
  refine ⟨⟨?_, ?_⟩, ?_⟩
  · simp [createRecipe, calcTotalCost_eq_specCostSum]
  · simpa [createRecipe] using mapGet_mapSet_self s.recipes s.currentRecipeId _
  · intro hing ex hex
    unfold updateRecipe
    rw [hex]
    simp only [hing]
    exact ⟨_, rfl, by simp [calcTotalCost_eq_specCostSum], mapGet_mapSet_self _ _ _⟩

/-- C1 witness at concrete data: one resolving and one dangling entry. -/
theorem recipe_totalCost_create_update_witness :
    ((createRecipe kitchen ⟨"Soup", "Main", 2, [⟨1, 2⟩, ⟨9, 3⟩]⟩).2.totalCost =
        round2 (specCostSum kitchen.ingredients [⟨1, 2⟩, ⟨9, 3⟩])
      ∧ (createRecipe kitchen ⟨"Soup", "Main", 2, [⟨1, 2⟩, ⟨9, 3⟩]⟩).2.totalCost = 3)
    ∧ ∃ r, (updateRecipe kitchen 5 { ingredients := some [⟨1, 4⟩] }).2 = some r
        ∧ r.totalCost = round2 (specCostSum kitchen.ingredients [⟨1, 4⟩]) := by
  have h := recipe_totalCost_create_update kitchen ⟨"Soup", "Main", 2, [⟨1, 2⟩, ⟨9, 3⟩]⟩
    5 { ingredients := some [⟨1, 4⟩] } [⟨1, 4⟩]
  refine ⟨⟨h.1.1, ?_⟩, ?_⟩
  · rw [h.1.1]
    show round2 (specCostSum kitchen.ingredients [⟨1, 2⟩, ⟨9, 3⟩]) = 3
    have h300 := round2_hundredth 300
    norm_num at h300
    have hsum : specCostSum kitchen.ingredients [⟨1, 2⟩, ⟨9, 3⟩] = 3 := by
      norm_num [specCostSum, kitchen, beef, mapGet]
    rw [hsum, h300]
  · obtain ⟨r, h1, h2, _⟩ := h.2 rfl stew rfl
    exact ⟨r, h1, h2⟩

/-- C8: an update whose patch omits `ingredients` leaves the stored
`totalCost` unchanged (the stored value is a 2-decimal quantity, so the
unconditional `toFixed(2)` re-rounding is the identity on it), whatever the
current ingredient costs are. -/
theorem recipe_update_totalCost_retained (s : RecipeStoreState) (id : ℤ)
    (u : RecipePatch) (ex : Recipe) (n : ℤ)
    (hex : mapGet s.recipes id = some ex) (hing : u.ingredients = none)
    (hn : ex.totalCost = (n : ℚ) / 100) :
    ∃ r, (updateRecipe s id u).2 = some r
      ∧ r.totalCost = ex.totalCost
      ∧ mapGet (updateRecipe s id u).1.recipes id = some r := by
  unfold updateRecipe
  rw [hex]
  simp only [hing]
  exact ⟨_, rfl, by simp [hn, round2_hundredth], mapGet_mapSet_self _ _ _⟩

/-- C8 witness: the stored `totalCost` `3.50 = 350/100` survives an update
that patches only the name. -/
theorem recipe_update_totalCost_retained_witness :
    ∃ r, (updateRecipe kitchen 5 { name := some "Goulash" }).2 = some r
      ∧ r.totalCost = stew.totalCost := by
  obtain ⟨r, h1, h2, _⟩ := recipe_update_totalCost_retained kitchen 5
    { name := some "Goulash" } stew 350 rfl rfl (by norm_num [stew])
  exact ⟨r, h1, h2⟩

/-- C9: `getRecipeWithDetails` returns `none` exactly for absent ids; for a
stored recipe it always succeeds, expanding each resolving ingredient entry
to `{ingredient, quantity, cost = costPerUnit × quantity}`, dropping
non-resolving entries, with `costPerServing = totalCost / servings`. -/
theorem recipe_with_details_dangling (s : RecipeStoreState) (id : ℤ) :
    (mapGet s.recipes id = none → getRecipeWithDetails s id = none)
    ∧ ∀ r, mapGet s.recipes id = some r → r.servings ≠ 0 →
        getRecipeWithDetails s id =
          some { recipe := r,
                 ingredientDetails := r.ingredients.filterMap fun ri =>
                   (mapGet s.ingredients ri.ingredientId).map fun ingredient =>
                     { ingredient := ingredient, quantity := ri.quantity,
                       cost := ingredient.costPerUnit * ri.quantity },
                 costPerServing := r.totalCost / (r.servings : ℚ) } := by
  constructor
  · intro h
    unfold getRecipeWithDetails
    rw [h]
  · intro r hr _
    unfold getRecipeWithDetails
    rw [hr]
    simp [buildIngredientDetails_eq_filterMap]

/-- C9 witness: the stored sample recipe has a dangling ingredient entry and
the expansion still succeeds, skipping it. -/
theorem recipe_with_details_dangling_witness :
    getRecipeWithDetails kitchen 5 =
      some { recipe := stew,
             ingredientDetails := stew.ingredients.filterMap fun ri =>
               (mapGet kitchen.ingredients ri.ingredientId).map fun ingredient =>
                 { ingredient := ingredient, quantity := ri.quantity,
                   cost := ingredient.costPerUnit * ri.quantity },
             costPerServing := stew.totalCost / (stew.servings : ℚ) } :=
  (recipe_with_details_dangling kitchen 5).2 stew rfl (by decide)

/-! ### Point-of-sale storage (the unnamed `MemStorage` module) -/

/-- Row of the `products` table.  `minStock` is a nullable integer column
(`integer("min_stock").default(5)` with no `notNull`), hence `Option`;
`stock` can become fractional or negative through sales, hence `ℚ`. -/
structure Product where
  id : ℤ
  name : String
  category : String
  price : ℚ
  cost : ℚ
  stock : ℚ
  unit : String
  barcode : Option String
  supplier : Option String
  minStock : Option ℚ
  isActive : Bool
  createdAt : ℚ
deriving DecidableEq

/-- One `{productId, quantity, price, total}` entry of a sale's `items` jsonb. -/
structure SaleItem where
  productId : ℤ
  quantity : ℚ
  price : ℚ
  total : ℚ
deriving DecidableEq

/-- Row of the `sales` table. -/
structure Sale where
  id : ℤ
  totalAmount : ℚ
  taxAmount : ℚ
  paymentMethod : String
  items : List SaleItem
  customerId : Option String
  cashierId : String
  createdAt : ℚ
deriving DecidableEq

/-- Row of the `cost_history` table (`productId` is nullable). -/
structure CostHistory where
  id : ℤ
  productId : Option ℤ
  oldCost : ℚ
  newCost : ℚ
  reason : Option String
  updatedAt : ℚ
deriving DecidableEq

/-- `InsertProduct` after zod validation: `cost`/`price` positive numbers,
`minStock` defaulted to 5 (never null on this path). -/
structure InsertProduct where
  name : String
  category : String
  price : ℚ
  cost : ℚ
  stock : ℚ
  unit : String
  barcode : Option String := none
  supplier : Option String := none
  minStock : ℚ := 5
  isActive : Bool := true
deriving DecidableEq

/-- `Partial<InsertProduct>`: every field optional. -/
structure ProductPatch where
  name : Option String := none
  category : Option String := none
  price : Option ℚ := none
  cost : Option ℚ := none
  stock : Option ℚ := none
  unit : Option String := none
  barcode : Option (Option String) := none
  supplier : Option (Option String) := none
  minStock : Option ℚ := none
  isActive : Option Bool := none
deriving DecidableEq

/-- `InsertSale` after zod validation. -/
structure InsertSale where
  totalAmount : ℚ
  taxAmount : Option ℚ := none
  paymentMethod : String
  items : List SaleItem
  customerId : Option String := none
  cashierId : String
deriving DecidableEq

/-- `Partial<InsertSale>`. -/
structure SalePatch where
  totalAmount : Option ℚ := none
  taxAmount : Option ℚ := none
  paymentMethod : Option String := none
  items : Option (List SaleItem) := none
  customerId : Option (Option String) := none
  cashierId : Option String := none
deriving DecidableEq

/-- `InsertCostHistory`. -/
structure InsertCostHistory where
  productId : Option ℤ := none
  oldCost : ℚ
  newCost : ℚ
  reason : Option String := none
deriving DecidableEq

/-- State of the POS `MemStorage`: the maps and id counters (the operational
costs map is untouched by every claim and omitted). -/
structure PosState where
  products : List (ℤ × Product)
  sales : List (ℤ × Sale)
  costHistory : List (ℤ × CostHistory)
  currentProductId : ℤ
  currentSaleId : ℤ
  currentHistoryId : ℤ
deriving DecidableEq

/-- `MemStorage.createProduct` (spread of the validated insert plus fresh id
and `createdAt`; `now` is the `new Date()` timestamp). -/
def createProduct (s : PosState) (now : ℚ) (ins : InsertProduct) :
    PosState × Product :=
  let id := s.currentProductId
  let product : Product :=
    { id := id, name := ins.name, category := ins.category, price := ins.price,
      cost := ins.cost, stock := ins.stock, unit := ins.unit,
      barcode := ins.barcode, supplier := ins.supplier,
      minStock := some ins.minStock, isActive := ins.isActive, createdAt := now }
  ({ s with products := mapSet s.products id product, currentProductId := id + 1 },
   product)

/-- `MemStorage.createCostHistory`. -/
def createCostHistory (s : PosState) (now : ℚ) (ins : InsertCostHistory) :
    PosState × CostHistory :=
  let id := s.currentHistoryId
  let h : CostHistory :=
    { id := id, productId := ins.productId, oldCost := ins.oldCost,
      newCost := ins.newCost, reason := ins.reason, updatedAt := now }
  ({ s with costHistory := mapSet s.costHistory id h, currentHistoryId := id + 1 },
   h)

/-- `MemStorage.updateProduct`.  The guard
`update.cost && update.cost.toString() !== existing.cost` is modelled as
"present, non-zero (JS truthiness) and different from the stored cost"; the
string comparison coincides with `ℚ` inequality because stored cost strings
are canonical `toString` images.  `update.cost ? ... : existing.cost`
likewise keeps the stored value when the patch cost is the falsy 0. -/
def updateProduct (s : PosState) (now : ℚ) (id : ℤ) (u : ProductPatch) :
    PosState × Option Product :=
  match mapGet s.products id with
  | none => (s, none)
  | some existing =>
      let s₁ :=
        match u.cost with
        | some c =>
            if c ≠ 0 ∧ c ≠ existing.cost then
              (createCostHistory s now
                { productId := some id, oldCost := existing.cost, newCost := c,
                  reason := some "Manual update" }).1
            else s
        | none => s
      let updated : Product :=
        { id := existing.id,
          name := u.name.getD existing.name,
          category := u.category.getD existing.category,
          price := match u.price with
            | some pr => if pr ≠ 0 then pr else existing.price
            | none => existing.price,
          cost := match u.cost with
            | some c => if c ≠ 0 then c else existing.cost
            | none => existing.cost,
          stock := u.stock.getD existing.stock,
          unit := u.unit.getD existing.unit,
          barcode := u.barcode.getD existing.barcode,
          supplier := u.supplier.getD existing.supplier,
          minStock := (u.minStock.map some).getD existing.minStock,
          isActive := u.isActive.getD existing.isActive,
          createdAt := existing.createdAt }
      ({ s₁ with products := mapSet s₁.products id updated }, some updated)

/-- The stock loop of `createSale`: for each item whose product resolves,
`stock := stock - quantity`; unresolving items are skipped. -/
def decStock : List (ℤ × Product) → List SaleItem → List (ℤ × Product)
  | ps, [] => ps
  | ps, item :: rest =>
      match mapGet ps item.productId with
      | some p =>
          decStock (mapSet ps item.productId { p with stock := p.stock - item.quantity })
            rest
      | none => decStock ps rest

/-- `MemStorage.createSale` (`taxAmount?.toString() || "0"` defaults a missing
tax to 0). -/
def createSale (s : PosState) (now : ℚ) (ins : InsertSale) : PosState × Sale :=
  let id := s.currentSaleId
  let sale : Sale :=
    { id := id, totalAmount := ins.totalAmount, taxAmount := ins.taxAmount.getD 0,
      paymentMethod := ins.paymentMethod, items := ins.items,
      customerId := ins.customerId, cashierId := ins.cashierId, createdAt := now }
  ({ s with products := decStock s.products ins.items,
            sales := mapSet s.sales id sale, currentSaleId := id + 1 },
   sale)

/-- `MemStorage.updateSale`: merge patch, re-canonicalising `totalAmount` and
`taxAmount` through the same truthiness guard as the source. -/
def updateSale (s : PosState) (id : ℤ) (u : SalePatch) : PosState × Option Sale :=
  match mapGet s.sales id with
  | none => (s, none)
  | some existing =>
      let updated : Sale :=
        { id := existing.id,
          totalAmount := match u.totalAmount with
            | some t => if t ≠ 0 then t else existing.totalAmount
            | none => existing.totalAmount,
          taxAmount := match u.taxAmount with
            | some t => if t ≠ 0 then t else existing.taxAmount
            | none => existing.taxAmount,
          paymentMethod := u.paymentMethod.getD existing.paymentMethod,
          items := u.items.getD existing.items,
          customerId := u.customerId.getD existing.customerId,
          cashierId := u.cashierId.getD existing.cashierId,
          createdAt := existing.createdAt }
      ({ s with sales := mapSet s.sales id updated }, some updated)

/-- `MemStorage.deleteSale`. -/
def deleteSale (s : PosState) (id : ℤ) : PosState × Bool :=
  let r := mapDelete s.sales id
  ({ s with sales := r.1 }, r.2)

/-- `MemStorage.getCostHistory`: `if (productId)` is a JS truthiness test, so
a present-but-zero filter argument behaves like an absent one. -/
def getCostHistory (s : PosState) (productId : Option ℤ) : List CostHistory :=
  let history := s.costHistory.map (fun p => p.2)
  match productId with
  | some pid =>
      if pid ≠ 0 then history.filter (fun h => decide (h.productId = some pid))
      else history
  | none => history

/-! ### Sample data for POS-side witnesses -/

/-- Sample product (cost `0.75`). -/
def espresso : Product :=
  ⟨1, "Espresso", "Beverages", 7/2, 3/4, 50, "cup", some "123456789",
   some "Coffee Co", some 10, true, 0⟩

/-- Sample product with stock 10 (for the claim's concrete sale example). -/
def sandwich : Product :=
  ⟨2, "Sandwich", "Food", 7, 3, 10, "piece", none, none, some 5, true, 0⟩

/-- Sample cost-history rows (one attached to product 2, one detached). -/
def histRow1 : CostHistory := ⟨1, some 2, 3, 7/2, some "Manual update", 0⟩

/-- Second sample cost-history row. -/
def histRow2 : CostHistory := ⟨2, none, 1, 2, none, 0⟩

/-- Sample POS store state. -/
def posStore : PosState :=
  ⟨[(1, espresso), (2, sandwich)], [], [(1, histRow1), (2, histRow2)], 3, 1, 3⟩

/-- C2: a product update whose (schema-valid, hence positive) patch cost
differs from the stored cost appends exactly one cost-history row, carrying
the prior stored cost, the new cost and reason "Manual update"; an update
with an absent or unchanged cost appends nothing, and a product create never
appends. -/
theorem product_update_cost_history (s : PosState) (now : ℚ) (id : ℤ)
    (u : ProductPatch) (existing : Product) (c : ℚ)
    (hex : mapGet s.products id = some existing)
    (hfresh : ∀ p ∈ s.costHistory, p.1 ≠ s.currentHistoryId) :
    (u.cost = some c → 0 < c → c ≠ existing.cost →
      (updateProduct s now id u).1.costHistory =
        s.costHistory ++ [(s.currentHistoryId,
          { id := s.currentHistoryId, productId := some id,
            oldCost := existing.cost, newCost := c,
            reason := some "Manual update", updatedAt := now })])
    ∧ (u.cost = some c → c = existing.cost →
        (updateProduct s now id u).1.costHistory = s.costHistory)
    ∧ (u.cost = none → (updateProduct s now id u).1.costHistory = s.costHistory)
    ∧ (∀ ins : InsertProduct, (createProduct s now ins).1.costHistory = s.costHistory) := by
  refine ⟨?_, ?_, ?_, ?_⟩
  · intro hc hpos hne
    simp only [updateProduct, hex, hc]
    rw [if_pos ⟨hpos.ne', hne⟩]
    simp only [createCostHistory]
    exact mapSet_fresh _ _ _ hfresh
  · intro hc heq
    simp only [updateProduct, hex, hc]
    rw [if_neg (fun hcon => hcon.2 heq)]
  · intro hc
    simp only [updateProduct, hex, hc]
  · intro ins
    simp only [createProduct]

/-- C2 witness: changing the stored cost `0.75` to `1.2` appends the single
audit row; creating a product appends nothing. -/
theorem product_update_cost_history_witness :
    ((updateProduct posStore 9 1 { cost := some (6/5) }).1.costHistory =
        posStore.costHistory ++ [(3,
          { id := 3, productId := some 1, oldCost := espresso.cost,
            newCost := 6/5, reason := some "Manual update", updatedAt := 9 })])
    ∧ (∀ ins : InsertProduct,
        (createProduct posStore 9 ins).1.costHistory = posStore.costHistory) := by
  have h := product_update_cost_history posStore 9 1 { cost := some (6/5) }
    espresso (6/5) rfl
    (by rintro p hp
        simp only [posStore, List.mem_cons, List.not_mem_nil, or_false] at hp
        rcases hp with rfl | rfl <;> decide)
  exact ⟨h.1 rfl (by norm_num) (by norm_num [espresso]), h.2.2.2⟩

/-- The per-product effect of the `createSale` stock loop: the final stock of
a stored product is its prior stock minus the summed quantities of the sale
items that reference it; absent ids stay absent. -/
theorem decStock_mapGet (items : List SaleItem) (ps : List (ℤ × Product))
    (pid : ℤ) :
    mapGet (decStock ps items) pid =
      (mapGet ps pid).map fun p =>
        { p with stock := p.stock -
            ((items.filter fun it => decide (it.productId = pid)).map
                fun it => it.quantity).sum } := by
  induction items generalizing ps with
  | nil => cases h : mapGet ps pid <;> simp [decStock, h]
  | cons item rest ih =>
      cases h : mapGet ps item.productId with
      | none =>
          simp only [decStock, h]
          rw [ih]
          by_cases hpid : item.productId = pid
          · subst hpid
            rw [h]
            simp
          · simp [List.filter_cons, hpid]
      | some p =>
          simp only [decStock, h]
          rw [ih]
          by_cases hpid : item.productId = pid
          · subst hpid
            rw [mapGet_mapSet_self, h]
            simp [List.filter_cons, sub_sub]
          · rw [mapGet_mapSet_ne _ _ (Ne.symm hpid)]
            simp [List.filter_cons, hpid]

/-- C3: creating a sale decrements the stock of every resolving referenced
product by exactly the sold quantity (no floor at zero), leaves products
referenced by non-resolving items untouched, and in particular takes a
product with stock 10 to stock 8 on a quantity-2 item. -/
theorem sale_create_stock_decrement :
    (∀ (s : PosState) (now : ℚ) (ins : InsertSale) (pid : ℤ),
      mapGet (createSale s now ins).1.products pid =
        (mapGet s.products pid).map fun p =>
          { p with stock := p.stock -
              ((ins.items.filter fun it => decide (it.productId = pid)).map
                  fun it => it.quantity).sum })
    ∧ mapGet (createSale posStore 0
        { totalAmount := 14, paymentMethod := "cash",
          items := [⟨2, 2, 7, 14⟩], cashierId := "c01" }).1.products 2 =
      some { sandwich with stock := 8 } := by
  have main : ∀ (s : PosState) (now : ℚ) (ins : InsertSale) (pid : ℤ),
      mapGet (createSale s now ins).1.products pid =
        (mapGet s.products pid).map fun p =>
          { p with stock := p.stock -
              ((ins.items.filter fun it => decide (it.productId = pid)).map
                  fun it => it.quantity).sum } := by
    intro s now ins pid
    simp only [createSale]
    exact decStock_mapGet ins.items s.products pid
  refine ⟨main, ?_⟩
  rw [main]
  have hget : mapGet posStore.products 2 = some sandwich := rfl
  rw [hget]
  norm_num [sandwich]

/-- C7: updating or deleting a sale leaves the products map untouched — the
stock decrement applied at sale creation is never reversed. -/
theorem sale_update_delete_products_frame (s : PosState) (id : ℤ) (u : SalePatch) :
    (updateSale s id u).1.products = s.products
    ∧ (deleteSale s id).1.products = s.products := by
  constructor
  · unfold updateSale
    cases mapGet s.sales id <;> rfl
  · rfl

/-- C10: `getCostHistory` with filter argument 0 returns the whole collection
(JS truthiness treats 0 as absent), with no argument returns the whole
collection, and with a positive id returns exactly the matching rows. -/
theorem cost_history_filter_zero (s : PosState) :
    getCostHistory s (some 0) = s.costHistory.map (fun p => p.2)
    ∧ getCostHistory s none = s.costHistory.map (fun p => p.2)
    ∧ ∀ pid : ℤ, 0 < pid →
        getCostHistory s (some pid) =
          (s.costHistory.map (fun p => p.2)).filter
            fun h => decide (h.productId = some pid) := by
  refine ⟨by simp [getCostHistory], rfl, ?_⟩
  intro pid hpid
  simp only [getCostHistory]
  rw [if_pos hpid.ne']

/-- C10 witness: on the sample store, filtering by product 2 keeps exactly
the matching row, and filter argument 0 returns everything. -/
theorem cost_history_filter_zero_witness :
    getCostHistory posStore (some 0) = posStore.costHistory.map (fun p => p.2)
    ∧ (0 < (2 : ℤ)
        ∧ getCostHistory posStore (some 2) =
            (posStore.costHistory.map (fun p => p.2)).filter
              fun h => decide (h.productId = some 2)) :=
  ⟨(cost_history_filter_zero posStore).1,
   by decide, (cost_history_filter_zero posStore).2.2 2 (by decide)⟩

/-! ### Inventory alerts -/

/-- Alert severity. -/
inductive Severity where
  | low
  | critical
deriving DecidableEq

/-- `InventoryAlert` shape; `minStock` is copied from the product, which in
the in-memory implementation may be null. -/
structure InventoryAlert where
  productId : ℤ
  productName : String
  currentStock : ℚ
  minStock : Option ℚ
  severity : Severity
deriving DecidableEq

/-- JS `ToNumber` coercion of a nullable number: `null` coerces to 0 inside
`<=` and `/`. -/
def jsNum : Option ℚ → ℚ
  | some q => q
  | none => 0

theorem jsNum_none : jsNum none = 0 := rfl

theorem jsNum_some (q : ℚ) : jsNum (some q) = q := rfl

/-- `MemStorage.getInventoryAlerts`: filter `stock <= minStock` and severity
`stock <= minStock / 2`, with NO null guard on `minStock` (a null `minStock`
coerces to 0). -/
def memGetInventoryAlerts (products : List Product) : List InventoryAlert :=
  (products.filter fun p => decide (p.stock ≤ jsNum p.minStock)).map fun p =>
    { productId := p.id, productName := p.name, currentStock := p.stock,
      minStock := p.minStock,
      severity := if p.stock ≤ jsNum p.minStock / 2 then Severity.critical
                  else Severity.low }

/-- `DatabaseStorage.getInventoryAlerts`: same computation but with the
explicit `minStock !== null` guard in the filter. -/
def dbGetInventoryAlerts (products : List Product) : List InventoryAlert :=
  (products.filter fun p =>
      p.minStock.isSome && decide (p.stock ≤ jsNum p.minStock)).map fun p =>
    { productId := p.id, productName := p.name, currentStock := p.stock,
      minStock := p.minStock,
      severity := if p.stock ≤ jsNum p.minStock / 2 then Severity.critical
                  else Severity.low }

/-- Modelled from the spec: the claim's description of `getInventoryAlerts` —
alert iff `stock ≤ minStock`, a null `minStock` excluded, severity critical
iff `stock ≤ minStock / 2`. -/
def alertsSpec (products : List Product) : List InventoryAlert :=
  products.filterMap fun p =>
    match p.minStock with
    | none => none
    | some m =>
        if p.stock ≤ m then
          some { productId := p.id, productName := p.name,
                 currentStock := p.stock, minStock := some m,
                 severity := if p.stock ≤ m / 2 then Severity.critical
                             else Severity.low }
        else none

/-- Modelled from the spec as amended: like `alertsSpec` for a non-null
`minStock`, but a null `minStock` is treated as 0 (included iff `stock ≤ 0`,
then always critical) — the in-memory implementation's actual behaviour. -/
def alertsMemAmended (products : List Product) : List InventoryAlert :=
  products.filterMap fun p =>
    match p.minStock with
    | none =>
        if p.stock ≤ 0 then
          some { productId := p.id, productName := p.name,
                 currentStock := p.stock, minStock := none,
                 severity := Severity.critical }
        else none
    | some m =>
        if p.stock ≤ m then
          some { productId := p.id, productName := p.name,
                 currentStock := p.stock, minStock := some m,
                 severity := if p.stock ≤ m / 2 then Severity.critical
                             else Severity.low }
        else none

/-- Product with a null `minStock` and stock 0 (stock ≤ 0 is reachable:
sales may drive stock to 0 or below). -/
def ghostProduct : Product := ⟨7, "Ghost", "Misc", 1, 1, 0, "piece", none, none, none, true, 0⟩

/-- C4 counterexample: the claim says a product whose `minStock` is null is
excluded from the alerts, but the in-memory implementation includes such a
product whenever its stock is ≤ 0 (null coerces to 0), as a critical alert. -/
theorem inventory_alerts_null_minStock_counterexample :
    ghostProduct.minStock = none
    ∧ memGetInventoryAlerts [ghostProduct] =
        [{ productId := 7, productName := "Ghost", currentStock := 0,
           minStock := none, severity := Severity.critical }]
    ∧ alertsSpec [ghostProduct] = [] := by
  refine ⟨rfl, ?_, rfl⟩
  norm_num [memGetInventoryAlerts, ghostProduct, jsNum]

/-- C4 (amended): for a non-null `minStock` both implementations alert iff
`stock ≤ minStock` with severity critical iff `stock ≤ minStock/2` (in
particular stock 3 / minStock 10 is critical and stock 8 / minStock 10 is
low); a null `minStock` is excluded by the database implementation but
treated as 0 by the in-memory one (included iff stock ≤ 0, then critical). -/
theorem inventory_alerts_amended :
    (∀ products, memGetInventoryAlerts products = alertsMemAmended products)
    ∧ (∀ products, dbGetInventoryAlerts products = alertsSpec products)
    ∧ memGetInventoryAlerts [{ espresso with stock := 3 }] =
        [⟨1, "Espresso", 3, some 10, Severity.critical⟩]
    ∧ memGetInventoryAlerts [{ espresso with stock := 8 }] =
        [⟨1, "Espresso", 8, some 10, Severity.low⟩]
    ∧ dbGetInventoryAlerts [{ espresso with stock := 3 }] =
        [⟨1, "Espresso", 3, some 10, Severity.critical⟩]
    ∧ dbGetInventoryAlerts [{ espresso with stock := 8 }] =
        [⟨1, "Espresso", 8, some 10, Severity.low⟩] := by
  refine ⟨?_, ?_, ?_, ?_, ?_, ?_⟩
  · intro products
    induction products with
    | nil => rfl
    | cons p rest ih =>
        simp only [memGetInventoryAlerts, alertsMemAmended, List.filter_cons,
          List.filterMap_cons] at ih ⊢
        cases hms : p.minStock with
        | none =>
            by_cases hst : p.stock ≤ 0
            · simp [hms, jsNum_none, hst, ih]
            · simp [hms, jsNum_none, hst, ih]
        | some m =>
            by_cases hst : p.stock ≤ m
            · simp [hms, jsNum_some, hst, ih]
            · simp [hms, jsNum_some, hst, ih]
  · intro products
    induction products with
    | nil => rfl
    | cons p rest ih =>
        simp only [dbGetInventoryAlerts, alertsSpec, List.filter_cons,
          List.filterMap_cons] at ih ⊢
        cases hms : p.minStock with
        | none => simp [hms, jsNum_none, ih]
        | some m =>
            by_cases hst : p.stock ≤ m
            · simp [hms, jsNum_some, hst, ih]
            · simp [hms, jsNum_some, hst, ih]
  · norm_num [memGetInventoryAlerts, espresso, jsNum]
  · norm_num [memGetInventoryAlerts, espresso, jsNum]
  · norm_num [dbGetInventoryAlerts, espresso, jsNum]
  · norm_num [dbGetInventoryAlerts, espresso, jsNum]

/-! ### Sales analytics (`getSalesAnalytics`) -/

/-- `24 * 60 * 60 * 1000` milliseconds. -/
def msPerDay : ℚ := 86400000

/-- Entry of `SaleWithDetails.itemDetails`. -/
structure ItemDetail where
  product : Product
  quantity : ℚ
  price : ℚ
  total : ℚ
deriving DecidableEq

/-- The item-expansion loop of `getSaleWithDetails`: items whose product
resolves are expanded, dangling items are skipped. -/
def expandItems (products : List (ℤ × Product)) : List SaleItem → List ItemDetail
  | [] => []
  | item :: rest =>
      match mapGet products item.productId with
      | some product =>
          { product := product, quantity := item.quantity, price := item.price,
            total := item.total } :: expandItems products rest
      | none => expandItems products rest

/-- `getSaleWithDetails` proper: the sale plus its expanded item details. -/
def getSaleWithDetails (s : PosState) (id : ℤ) :
    Option (Sale × List ItemDetail) :=
  match mapGet s.sales id with
  | none => none
  | some sale => some (sale, expandItems s.products sale.items)

/-- Value stored in the `productSales` grouping map. -/
structure ProductSalesEntry where
  product : Product
  totalSold : ℚ
  revenue : ℚ
deriving DecidableEq

/-- One 7-day-trend entry; the ISO date string is modelled as the day index
of the bucket start. -/
structure TrendEntry where
  date : ℤ
  sales : ℚ
  profit : ℚ
deriving DecidableEq

/-- The analytics summary object. -/
structure SalesAnalytics where
  totalSales : ℚ
  totalProfit : ℚ
  averageOrderValue : ℚ
  topSellingProducts : List ProductSalesEntry
  salesByCategory : List (String × ℚ)
  salesTrend : List TrendEntry
deriving DecidableEq

/-- One sale's profit: `Σ (item.total - product.cost × quantity)` over the
expanded item details (current product cost, dangling items already gone). -/
def saleProfit : List ItemDetail → ℚ
  | [] => 0
  | it :: rest => (it.total - it.product.cost * it.quantity) + saleProfit rest

/-- `reduce` summing `totalAmount` over sales-with-details. -/
def sumAmounts : List (Sale × List ItemDetail) → ℚ
  | [] => 0
  | sd :: rest => sd.1.totalAmount + sumAmounts rest

/-- `reduce` summing per-sale profits. -/
def sumProfits : List (Sale × List ItemDetail) → ℚ
  | [] => 0
  | sd :: rest => saleProfit sd.2 + sumProfits rest

/-- One step of the `productSales` grouping, keyed by `product.id`; the first
occurrence fixes the stored product object and the insertion slot. -/
def addProductSale (m : List (ℤ × ProductSalesEntry)) (it : ItemDetail) :
    List (ℤ × ProductSalesEntry) :=
  match mapGet m it.product.id with
  | some e =>
      mapSet m it.product.id
        { e with totalSold := e.totalSold + it.quantity,
                 revenue := e.revenue + it.total }
  | none =>
      mapSet m it.product.id
        { product := it.product, totalSold := it.quantity, revenue := it.total }

/-- Inner `forEach` of the grouping (over one sale's item details). -/
def buildProductSales :
    List (ℤ × ProductSalesEntry) → List ItemDetail → List (ℤ × ProductSalesEntry)
  | m, [] => m
  | m, it :: rest => buildProductSales (addProductSale m it) rest

/-- Outer `forEach` of the grouping (over the window's sales). -/
def buildProductSalesAll :
    List (ℤ × ProductSalesEntry) → List (Sale × List ItemDetail) →
      List (ℤ × ProductSalesEntry)
  | m, [] => m
  | m, sd :: rest => buildProductSalesAll (buildProductSales m sd.2) rest

/-- Stable insertion for the descending-by-`totalSold` sort (JS `sort` with
comparator `b.totalSold - a.totalSold` is stable). -/
def insertBySoldDesc (e : ProductSalesEntry) :
    List ProductSalesEntry → List ProductSalesEntry
  | [] => [e]
  | x :: xs =>
      if x.totalSold < e.totalSold then e :: x :: xs
      else x :: insertBySoldDesc e xs

/-- Stable descending sort by `totalSold`. -/
def sortBySoldDesc : List ProductSalesEntry → List ProductSalesEntry
  | [] => []
  | x :: xs => insertBySoldDesc x (sortBySoldDesc xs)

/-- `salesByCategory[cat] = (salesByCategory[cat] || 0) + total`: an upsert on
the insertion-ordered string-keyed record. -/
def addToCategory (m : List (String × ℚ)) (cat : String) (v : ℚ) :
    List (String × ℚ) :=
  mapSet m cat ((mapGet m cat).getD 0 + v)

/-- Inner `forEach` of the category aggregation. -/
def buildByCategory : List (String × ℚ) → List ItemDetail → List (String × ℚ)
  | m, [] => m
  | m, it :: rest => buildByCategory (addToCategory m it.product.category it.total) rest

/-- Outer `forEach` of the category aggregation. -/
def buildByCategoryAll :
    List (String × ℚ) → List (Sale × List ItemDetail) → List (String × ℚ)
  | m, [] => m
  | m, sd :: rest => buildByCategoryAll (buildByCategory m sd.2) rest

/-- Midnight preceding timestamp `t` (the source's local-time
`new Date(y, m, d)` boundary, idealised as the UTC day floor). -/
def dayFloor (t : ℚ) : ℚ := msPerDay * ⌊t / msPerDay⌋

/-- The trend entry for loop counter `i` (`i` days before now): bucket
`[dayStart, dayStart + msPerDay)` filtered out of the window's sales. -/
def trendEntry (recent : List (Sale × List ItemDetail)) (now : ℚ) (i : ℤ) :
    TrendEntry :=
  let dayStart := dayFloor (now - i * msPerDay)
  let dayEnd := dayStart + msPerDay
  let daySales := recent.filter fun sd =>
    decide (dayStart ≤ sd.1.createdAt) && decide (sd.1.createdAt < dayEnd)
  { date := ⌊dayStart / msPerDay⌋, sales := sumAmounts daySales,
    profit := sumProfits daySales }

/-- `MemStorage.getSalesAnalytics` over a product map and a sales list
(`getSalesWithDetails` inlined as the `expandItems` expansion). -/
def getSalesAnalytics (products : List (ℤ × Product)) (salesList : List Sale)
    (now days : ℚ) : SalesAnalytics :=
  let salesD := salesList.map fun sale => (sale, expandItems products sale.items)
  let cutoff := now - days * msPerDay
  let recentSales := salesD.filter fun sd => decide (cutoff ≤ sd.1.createdAt)
  { totalSales := sumAmounts recentSales,
    totalProfit := sumProfits recentSales,
    averageOrderValue :=
      if 0 < recentSales.length then
        sumAmounts recentSales / (recentSales.length : ℚ)
      else 0,
    topSellingProducts :=
      (sortBySoldDesc ((buildProductSalesAll [] recentSales).map fun p => p.2)).take 5,
    salesByCategory := buildByCategoryAll [] recentSales,
    salesTrend := (List.range 7).map fun k : ℕ => trendEntry recentSales now (6 - (k : ℤ)) }

/-- The storage method itself, reading the state's maps. -/
def stateSalesAnalytics (s : PosState) (now days : ℚ) : SalesAnalytics :=
  getSalesAnalytics s.products (s.sales.map fun p => p.2) now days

/-- C6: with no sale inside the window, every aggregate of
`getSalesAnalytics` is zero or empty, the average-order-value division is
never performed (guarded by the count check), and the trend still has exactly
7 all-zero entries. -/
theorem analytics_empty_window (products : List (ℤ × Product))
    (salesList : List Sale) (now days : ℚ)
    (h : ∀ sale ∈ salesList, sale.createdAt < now - days * msPerDay) :
    (getSalesAnalytics products salesList now days).totalSales = 0
    ∧ (getSalesAnalytics products salesList now days).totalProfit = 0
    ∧ (getSalesAnalytics products salesList now days).averageOrderValue = 0
    ∧ (getSalesAnalytics products salesList now days).topSellingProducts = []
    ∧ (getSalesAnalytics products salesList now days).salesByCategory = []
    ∧ (getSalesAnalytics products salesList now days).salesTrend.length = 7
    ∧ ∀ e ∈ (getSalesAnalytics products salesList now days).salesTrend,
        e.sales = 0 ∧ e.profit = 0 := by
  have hrec : (salesList.map fun sale => (sale, expandItems products sale.items)).filter
      (fun sd => decide (now - days * msPerDay ≤ sd.1.createdAt)) = [] := by
    rw [List.filter_eq_nil_iff]
    rintro sd hsd
    simp only [List.mem_map] at hsd
    obtain ⟨sale, hs, rfl⟩ := hsd
    simpa using not_le.mpr (h sale hs)
  simp only [getSalesAnalytics, hrec]
  refine ⟨rfl, rfl, by norm_num, rfl, rfl, rfl, ?_⟩
  intro e he
  simp only [List.mem_map] at he
  obtain ⟨k, _, rfl⟩ := he
  exact ⟨rfl, rfl⟩

/-- Sample sale dated at epoch 0, far outside the witness window. -/
def oldSale : Sale := ⟨1, 5, 0, "cash", [⟨1, 1, 5, 5⟩], none, "c01", 0⟩

/-- C6 witness: a 7-day window ending at day 10 over a store whose only sale
happened at time 0. -/
theorem analytics_empty_window_witness :
    (getSalesAnalytics [(1, espresso)] [oldSale] (10 * msPerDay) 7).totalSales = 0
    ∧ (getSalesAnalytics [(1, espresso)] [oldSale] (10 * msPerDay) 7).totalProfit = 0
    ∧ (getSalesAnalytics [(1, espresso)] [oldSale] (10 * msPerDay) 7).averageOrderValue = 0
    ∧ (getSalesAnalytics [(1, espresso)] [oldSale] (10 * msPerDay) 7).topSellingProducts = []
    ∧ (getSalesAnalytics [(1, espresso)] [oldSale] (10 * msPerDay) 7).salesByCategory = []
    ∧ (getSalesAnalytics [(1, espresso)] [oldSale] (10 * msPerDay) 7).salesTrend.length = 7
    ∧ ∀ e ∈ (getSalesAnalytics [(1, espresso)] [oldSale] (10 * msPerDay) 7).salesTrend,
        e.sales = 0 ∧ e.profit = 0 :=
  analytics_empty_window [(1, espresso)] [oldSale] (10 * msPerDay) 7
    (by
      intro sale hs
      rw [List.mem_singleton] at hs
      subst hs
      norm_num [oldSale, msPerDay])

/-! ### Congruence machinery: the analytics pipeline only reads
`totalAmount`, `createdAt` and the expanded item details of each sale. -/

/-- Relation identifying the components of a sale-with-details that the
analytics aggregates read. -/
def SaleDRel (a b : Sale × List ItemDetail) : Prop :=
  a.1.totalAmount = b.1.totalAmount ∧ a.1.createdAt = b.1.createdAt ∧ a.2 = b.2

theorem sumAmounts_rel {l₁ l₂ : List (Sale × List ItemDetail)}
    (h : List.Forall₂ SaleDRel l₁ l₂) : sumAmounts l₁ = sumAmounts l₂ := by
  induction h with
  | nil => rfl
  | cons hr _ ih => simp only [sumAmounts, ih, hr.1]

theorem sumProfits_rel {l₁ l₂ : List (Sale × List ItemDetail)}
    (h : List.Forall₂ SaleDRel l₁ l₂) : sumProfits l₁ = sumProfits l₂ := by
  induction h with
  | nil => rfl
  | cons hr _ ih => simp only [sumProfits, ih, hr.2.2]

theorem filter_rel (p : Sale × List ItemDetail → Bool)
    (hp : ∀ a b, SaleDRel a b → p a = p b)
    {l₁ l₂ : List (Sale × List ItemDetail)} (h : List.Forall₂ SaleDRel l₁ l₂) :
    List.Forall₂ SaleDRel (l₁.filter p) (l₂.filter p) := by
  induction h with
  | nil => exact List.Forall₂.nil
  | cons hr hl ih =>
      rename_i a b t₁ t₂
      simp only [List.filter_cons]
      rw [hp a b hr]
      by_cases hq : p b = true
      · simp only [hq, if_true]
        exact List.Forall₂.cons hr ih
      · simp only [hq, if_false]
        exact ih

theorem buildProductSalesAll_rel {l₁ l₂ : List (Sale × List ItemDetail)}
    (h : List.Forall₂ SaleDRel l₁ l₂) :
    ∀ m, buildProductSalesAll m l₁ = buildProductSalesAll m l₂ := by
  induction h with
  | nil => intro m; rfl
  | cons hr _ ih =>
      intro m
      simp only [buildProductSalesAll]
      rw [hr.2.2]
      exact ih _

theorem buildByCategoryAll_rel {l₁ l₂ : List (Sale × List ItemDetail)}
    (h : List.Forall₂ SaleDRel l₁ l₂) :
    ∀ m, buildByCategoryAll m l₁ = buildByCategoryAll m l₂ := by
  induction h with
  | nil => intro m; rfl
  | cons hr _ ih =>
      intro m
      simp only [buildByCategoryAll]
      rw [hr.2.2]
      exact ih _

theorem trendEntry_rel {l₁ l₂ : List (Sale × List ItemDetail)}
    (h : List.Forall₂ SaleDRel l₁ l₂) (now : ℚ) (i : ℤ) :
    trendEntry l₁ now i = trendEntry l₂ now i := by
  simp only [trendEntry]
  have hd := filter_rel
    (fun sd => decide (dayFloor (now - i * msPerDay) ≤ sd.1.createdAt) &&
               decide (sd.1.createdAt < dayFloor (now - i * msPerDay) + msPerDay))
    (fun a b hab => by simp only [hab.2.1]) h
  rw [sumAmounts_rel hd, sumProfits_rel hd]

/-- The sale-level relation sufficient for analytics congruence. -/
def saleViewRel (products : List (ℤ × Product)) (s₁ s₂ : Sale) : Prop :=
  s₁.totalAmount = s₂.totalAmount ∧ s₁.createdAt = s₂.createdAt ∧
    expandItems products s₁.items = expandItems products s₂.items

theorem forall₂_saleViewRel_refl (products : List (ℤ × Product))
    (l : List Sale) : List.Forall₂ (saleViewRel products) l l := by
  induction l with
  | nil => exact List.Forall₂.nil
  | cons a t ih => exact List.Forall₂.cons ⟨rfl, rfl, rfl⟩ ih

theorem forall₂_saleViewRel_middle (products : List (ℤ × Product))
    (pre post : List Sale) {mid₁ mid₂ : Sale}
    (hm : saleViewRel products mid₁ mid₂) :
    List.Forall₂ (saleViewRel products) (pre ++ mid₁ :: post)
      (pre ++ mid₂ :: post) := by
  induction pre with
  | nil => exact List.Forall₂.cons hm (forall₂_saleViewRel_refl products post)
  | cons a t ih => exact List.Forall₂.cons ⟨rfl, rfl, rfl⟩ ih

/-- Two sales lists whose entries agree on `totalAmount`, `createdAt` and
expanded item details yield identical analytics. -/
theorem getSalesAnalytics_congr (products : List (ℤ × Product))
    {l₁ l₂ : List Sale} (now days : ℚ)
    (h : List.Forall₂ (saleViewRel products) l₁ l₂) :
    getSalesAnalytics products l₁ now days =
      getSalesAnalytics products l₂ now days := by
  have hD : List.Forall₂ SaleDRel
      (l₁.map fun sale => (sale, expandItems products sale.items))
      (l₂.map fun sale => (sale, expandItems products sale.items)) := by
    induction h with
    | nil => exact List.Forall₂.nil
    | cons hr _ ih => exact List.Forall₂.cons ⟨hr.1, hr.2.1, hr.2.2⟩ ih
  have hrec := filter_rel
    (fun sd => decide (now - days * msPerDay ≤ sd.1.createdAt))
    (fun a b hab => by simp only [hab.2.1]) hD
  simp only [getSalesAnalytics]
  rw [SalesAnalytics.mk.injEq]
  refine ⟨sumAmounts_rel hrec, sumProfits_rel hrec, ?_, ?_, ?_, ?_⟩
  · rw [sumAmounts_rel hrec, List.Forall₂.length_eq hrec]
  · rw [buildProductSalesAll_rel hrec []]
  · exact buildByCategoryAll_rel hrec []
  · congr 1
    funext k
    exact trendEntry_rel hrec now (6 - (k : ℤ))

theorem expandItems_append (products : List (ℤ × Product))
    (l₁ l₂ : List SaleItem) :
    expandItems products (l₁ ++ l₂) =
      expandItems products l₁ ++ expandItems products l₂ := by
  induction l₁ with
  | nil => rfl
  | cons item rest ih =>
      cases h : mapGet products item.productId <;> simp [expandItems, h, ih]

theorem sumAmounts_append (l₁ l₂ : List (Sale × List ItemDetail)) :
    sumAmounts (l₁ ++ l₂) = sumAmounts l₁ + sumAmounts l₂ := by
  induction l₁ with
  | nil => simp [sumAmounts]
  | cons sd rest ih =>
      simp only [List.cons_append, sumAmounts, List.append_eq, ih]
      ring

/-- Splitting the window filter around a distinguished sale. -/
theorem filter_map_middle (products : List (ℤ × Product))
    (P : Sale × List ItemDetail → Bool) (pre post : List Sale) (s : Sale) :
    (((pre ++ s :: post).map fun sale => (sale, expandItems products sale.items)).filter P) =
      (((pre.map fun sale => (sale, expandItems products sale.items)).filter P) ++
        if P (s, expandItems products s.items) = true
        then (s, expandItems products s.items) ::
          ((post.map fun sale => (sale, expandItems products sale.items)).filter P)
        else ((post.map fun sale => (sale, expandItems products sale.items)).filter P)) := by
  rw [List.map_append, List.map_cons, List.filter_append, List.filter_cons]

/-- C5: a sale item whose product no longer exists is dropped by the
expansion step, so the whole analytics record is unchanged when the dangling
item is removed from the sale (it contributes 0 to `totalProfit`,
`salesByCategory` and `topSellingProducts`); yet the sale's full
`totalAmount` still counts towards `totalSales` and towards its trend
bucket's revenue. -/
theorem analytics_dangling_item (products : List (ℤ × Product))
    (pre post : List Sale) (sale : Sale) (l₁ l₂ : List SaleItem)
    (dang : SaleItem) (now days : ℚ)
    (hdang : mapGet products dang.productId = none)
    (hwin : now - days * msPerDay ≤ sale.createdAt) :
    getSalesAnalytics products
        (pre ++ { sale with items := l₁ ++ dang :: l₂ } :: post) now days
      = getSalesAnalytics products
          (pre ++ { sale with items := l₁ ++ l₂ } :: post) now days
    ∧ (getSalesAnalytics products
          (pre ++ { sale with items := l₁ ++ dang :: l₂ } :: post) now days).totalSales
        = (getSalesAnalytics products (pre ++ post) now days).totalSales
            + sale.totalAmount
    ∧ ∀ (k : ℕ) (e₁ e₂ : TrendEntry), k < 7 →
        dayFloor (now - ((6 - (k : ℤ) : ℤ) : ℚ) * msPerDay) ≤ sale.createdAt →
        sale.createdAt < dayFloor (now - ((6 - (k : ℤ) : ℤ) : ℚ) * msPerDay) + msPerDay →
        (getSalesAnalytics products
            (pre ++ { sale with items := l₁ ++ dang :: l₂ } :: post) now days).salesTrend.get? k
          = some e₁ →
        (getSalesAnalytics products (pre ++ post) now days).salesTrend.get? k
          = some e₂ →
        e₁.sales = e₂.sales + sale.totalAmount := by
  have hexp : expandItems products (l₁ ++ dang :: l₂) = expandItems products (l₁ ++ l₂) := by
    rw [expandItems_append, expandItems_append]
    simp only [expandItems, hdang]
  have hP₁ : (fun sd : Sale × List ItemDetail =>
        decide (now - days * msPerDay ≤ sd.1.createdAt))
      ({ sale with items := l₁ ++ dang :: l₂ },
        expandItems products ({ sale with items := l₁ ++ dang :: l₂ }).items) = true := by
    simpa using hwin
  refine ⟨?_, ?_, ?_⟩
  · exact getSalesAnalytics_congr products now days
      (forall₂_saleViewRel_middle products pre post ⟨rfl, rfl, hexp⟩)
  · simp only [getSalesAnalytics]
    rw [filter_map_middle products _ pre post, if_pos hP₁,
      List.map_append, List.filter_append]
    simp only [sumAmounts_append, sumAmounts]
    ring
  · intro k e₁ e₂ hk hk1 hk2 hg1 hg2
    have ht₁ : (getSalesAnalytics products
        (pre ++ { sale with items := l₁ ++ dang :: l₂ } :: post) now days).salesTrend.get? k
        = some (trendEntry
            ((((pre ++ { sale with items := l₁ ++ dang :: l₂ } :: post).map
                fun sale => (sale, expandItems products sale.items)).filter
              fun sd => decide (now - days * msPerDay ≤ sd.1.createdAt)) )
            now (6 - (k : ℤ))) := by
      simp only [getSalesAnalytics]
      rw [List.get?_map, List.get?_range hk]
      rfl
    have ht₂ : (getSalesAnalytics products (pre ++ post) now days).salesTrend.get? k
        = some (trendEntry
            ((((pre ++ post).map
                fun sale => (sale, expandItems products sale.items)).filter
              fun sd => decide (now - days * msPerDay ≤ sd.1.createdAt)) )
            now (6 - (k : ℤ))) := by
      simp only [getSalesAnalytics]
      rw [List.get?_map, List.get?_range hk]
      rfl
    have he₁ := Option.some.inj ((hg1.symm).trans ht₁)
    have he₂ := Option.some.inj ((hg2.symm).trans ht₂)
    subst he₁
    subst he₂
    have hQ₁ : (fun sd : Sale × List ItemDetail =>
          decide (dayFloor (now - ((6 - (k : ℤ) : ℤ) : ℚ) * msPerDay) ≤ sd.1.createdAt) &&
          decide (sd.1.createdAt < dayFloor (now - ((6 - (k : ℤ) : ℤ) : ℚ) * msPerDay) + msPerDay))
        ({ sale with items := l₁ ++ dang :: l₂ },
          expandItems products ({ sale with items := l₁ ++ dang :: l₂ }).items) = true := by
      show (decide (dayFloor (now - ((6 - (k : ℤ) : ℤ) : ℚ) * msPerDay) ≤ sale.createdAt) &&
        decide (sale.createdAt <
          dayFloor (now - ((6 - (k : ℤ) : ℤ) : ℚ) * msPerDay) + msPerDay)) = true
      rw [decide_eq_true hk1, decide_eq_true hk2]
      rfl
    simp only [trendEntry]
    rw [filter_map_middle products _ pre post, if_pos hP₁,
      List.filter_append, List.filter_cons, if_pos hQ₁,
      List.map_append, List.filter_append, List.filter_append]
    simp only [sumAmounts_append, sumAmounts]
    ring

/-- Sample in-window sale skeleton for the C5 witness (`createdAt` inside
day 9, window days 3..10). -/
def saleW : Sale := ⟨1, 17/2, 0, "card", [], none, "c01", 9 * msPerDay + 5⟩

/-- Sample dangling sale item (product 99 does not exist). -/
def dangW : SaleItem := ⟨99, 1, 5, 5⟩

/-- C5 witness: one sale holding a dangling item and a resolving item. -/
theorem analytics_dangling_item_witness :
    getSalesAnalytics [(1, espresso)]
        [{ saleW with items := [] ++ dangW :: [⟨1, 1, 7/2, 7/2⟩] }] (10 * msPerDay) 7
      = getSalesAnalytics [(1, espresso)]
          [{ saleW with items := [] ++ [⟨1, 1, 7/2, 7/2⟩] }] (10 * msPerDay) 7
    ∧ (getSalesAnalytics [(1, espresso)]
          [{ saleW with items := [] ++ dangW :: [⟨1, 1, 7/2, 7/2⟩] }]
          (10 * msPerDay) 7).totalSales
        = (getSalesAnalytics [(1, espresso)] [] (10 * msPerDay) 7).totalSales
            + saleW.totalAmount
    ∧ ∀ e₁ e₂ : TrendEntry,
        (getSalesAnalytics [(1, espresso)]
            [{ saleW with items := [] ++ dangW :: [⟨1, 1, 7/2, 7/2⟩] }]
            (10 * msPerDay) 7).salesTrend.get? 5 = some e₁ →
        (getSalesAnalytics [(1, espresso)] [] (10 * msPerDay) 7).salesTrend.get? 5
          = some e₂ →
        e₁.sales = e₂.sales + saleW.totalAmount := by
  have h := analytics_dangling_item [(1, espresso)] [] [] saleW []
    [⟨1, 1, 7/2, 7/2⟩] dangW (10 * msPerDay) 7 rfl
    (by norm_num [saleW, msPerDay])
  exact ⟨h.1, h.2.1, fun e₁ e₂ h1 h2 =>
    h.2.2 5 e₁ e₂ (by norm_num)
      (by norm_num [saleW, dayFloor, msPerDay])
      (by norm_num [saleW, dayFloor, msPerDay]) h1 h2⟩

end RestaurantSpec
